import Mathlib

/-!
Shallow embedding of `src/c2_blockchain/p1_header_chain.rs`: the minimal
hash-linked header chain with `Header::genesis`, `Header::child` and
`Header::verify_sub_chain`, together with the chain-builder helpers of that
file.

Machine integers: `parent` (the `Hash` alias) and `height` are Rust `u64`
values, embedded as `Nat`; the addition `height + 1` is embedded as wrapping
addition modulo `2 ^ 64`, the defined overflow behaviour of a Rust release
build.  A second family of definitions (`Header.child_checked`,
`Header.verify_sub_chain_checked`) embeds the overflow-checked build that
`cargo test` uses, in which an addition that overflows `u64` aborts the
program; `none` models that abort.

The hash function `crate::hash` is not part of this file of the repository;
the specification treats it as an opaque deterministic function from headers
to `u64` digests.  All definitions are therefore parameterised by an
arbitrary `hashFn : Header → Nat`, and `modelHash` below is one concrete
deterministic instance used to evaluate closed statements.
-/

/-- Modulus of the 64-bit unsigned machine integers (`u64`) used for the
`Hash` alias and for `height`. -/
def u64Mod : Nat := 2 ^ 64

/-- Rust: `struct Header { parent: Hash, height: u64, extrinsics_root: (),
state_root: (), consensus_digest: () }`. -/
structure Header where
  parent : Nat
  height : Nat
  extrinsics_root : Unit
  state_root : Unit
  consensus_digest : Unit
  deriving DecidableEq

/-- Modelled from the spec: the repository's hash function `crate::hash` is
not under `src/`; the specification describes it only as an opaque
deterministic function `hash : Header -> Hash`.  The theorems below quantify
over an arbitrary `hashFn`; this is one concrete deterministic instance,
used to instantiate hash-parametric statements on concrete inputs. -/
def modelHash (h : Header) : Nat :=
  (2 * h.parent + 3 * h.height + 5) % u64Mod

/-- Rust: `Header::genesis` — parent `0` (the sentinel), height `0`, unit
placeholder fields. -/
def Header.genesis : Header :=
  ⟨0, 0, (), (), ()⟩

/-- Rust: `Header::child` — `Self { parent: hash(&self), height: self.height
+ 1, ..self.clone() }`, the `u64` addition embedded as wrapping addition. -/
def Header.child (hashFn : Header → Nat) (self : Header) : Header :=
  { self with parent := hashFn self, height := (self.height + 1) % u64Mod }

/-- Rust: `Header::verify_sub_chain` — empty continuations are valid, and a
nonempty continuation must link by hash, step the height by one (`u64`
addition), and recursively verify its tail. -/
def Header.verify_sub_chain (hashFn : Header → Nat) : Header → List Header → Bool
  | _, [] => true
  | self, h0 :: rest =>
      (hashFn self == h0.parent) &&
      ((self.height + 1) % u64Mod == h0.height) &&
      Header.verify_sub_chain hashFn h0 rest

/-- Overflow-checked `u64` addition, as compiled by a Rust build with
overflow checks (the profile `cargo test` uses): the sum when it fits in 64
bits, `none` (modelling the abort) otherwise. -/
def u64CheckedAdd (a b : Nat) : Option Nat :=
  if a + b < u64Mod then some (a + b) else none

/-- `Header::child` under the overflow-checked build: `none` models the
abort of the addition `self.height + 1` at `height = u64::MAX`. -/
def Header.child_checked (hashFn : Header → Nat) (self : Header) : Option Header :=
  match u64CheckedAdd self.height 1 with
  | none => none
  | some s => some { self with parent := hashFn self, height := s }

/-- `Header::verify_sub_chain` under the overflow-checked build.  Rust's
`&&` is lazy, so `self.height + 1` is evaluated — and can abort, modelled by
`none` — only when the hash-linkage test has already succeeded. -/
def Header.verify_sub_chain_checked (hashFn : Header → Nat) :
    Header → List Header → Option Bool
  | _, [] => some true
  | self, h0 :: rest =>
      if hashFn self == h0.parent then
        match u64CheckedAdd self.height 1 with
        | none => none
        | some s =>
            if s == h0.height then Header.verify_sub_chain_checked hashFn h0 rest
            else some false
      else some false

/-- The loop body of `build_valid_chain_length_5`: push the child of the
current last element, `k` times.  (`chain.last().unwrap()` never sees an
empty list there, so the `getLastD` default is unreachable.) -/
def pushChildLoop (hashFn : Header → Nat) : List Header → Nat → List Header
  | chain, 0 => chain
  | chain, Nat.succ k =>
      pushChildLoop hashFn
        (chain ++ [Header.child hashFn (chain.getLastD Header.genesis)]) k

/-- Rust: `build_valid_chain_length_5` — `vec![Header::genesis()]`, then
four pushes of the last element's child. -/
def build_valid_chain_length_5 (hashFn : Header → Nat) : List Header :=
  pushChildLoop hashFn [Header.genesis] 4

/-- Rust: `build_an_invalid_chain` — three verbatim copies of `genesis`. -/
def build_an_invalid_chain : List Header :=
  [Header.genesis, Header.genesis, Header.genesis]

/-- The chain of `n` headers obtained from `h` by repeatedly taking
children: `[h, child h, child (child h), ...]`. -/
def childChain (hashFn : Header → Nat) : Header → Nat → List Header
  | _, 0 => []
  | h, Nat.succ k => h :: childChain hashFn (Header.child hashFn h) k

/-- `chain[0].verify_sub_chain(&chain[1..])`, for a possibly empty list. -/
def verifyFromHead (hashFn : Header → Nat) : List Header → Bool
  | [] => true
  | h :: rest => Header.verify_sub_chain hashFn h rest

/-- The field mutation `b1.height = v` of the repository's tests (a new
header value differing only in `height`). -/
def Header.setHeight (h : Header) (v : Nat) : Header :=
  { h with height := v }

/-- The field mutation `b1.parent = w` of the repository's tests (a new
header value differing only in `parent`). -/
def Header.setParent (h : Header) (w : Nat) : Header :=
  { h with parent := w }

/-- Unfolding of `verify_sub_chain` on a nonempty continuation. -/
theorem verify_sub_chain_cons (hashFn : Header → Nat) (self h0 : Header)
    (rest : List Header) :
    Header.verify_sub_chain hashFn self (h0 :: rest) =
      ((hashFn self == h0.parent) &&
       (((self.height + 1) % u64Mod == h0.height) &&
        Header.verify_sub_chain hashFn h0 rest)) := by
  simp only [Header.verify_sub_chain, Bool.and_assoc]

/-- Propositional characterisation of one verification step. -/
theorem verify_sub_chain_cons_iff (hashFn : Header → Nat) (self h0 : Header)
    (rest : List Header) :
    Header.verify_sub_chain hashFn self (h0 :: rest) = true ↔
      (hashFn self = h0.parent ∧ (self.height + 1) % u64Mod = h0.height ∧
        Header.verify_sub_chain hashFn h0 rest = true) := by
  simp [verify_sub_chain_cons]

/-- C1: `verify_sub_chain start chain` returns true iff `chain` is empty, or
the hash linkage holds, the height steps by one (`u64` arithmetic), and the
tail verifies recursively against `chain[0]`. -/
theorem c1_verify_sub_chain_recurrence (hashFn : Header → Nat) (start : Header)
    (chain : List Header) :
    Header.verify_sub_chain hashFn start chain = true ↔
      (chain = [] ∨
        ∃ h0 rest, chain = h0 :: rest ∧
          hashFn start = h0.parent ∧
          (start.height + 1) % u64Mod = h0.height ∧
          Header.verify_sub_chain hashFn h0 rest = true) := by
  cases chain with
  | nil => simp [Header.verify_sub_chain]
  | cons h0 rest =>
      simp only [verify_sub_chain_cons_iff, List.cons_ne_nil, false_or]
      constructor
      · intro h
        exact ⟨h0, rest, rfl, h.1, h.2.1, h.2.2⟩
      · rintro ⟨h1, rest1, heq, hlink, hheight, hrest⟩
        injection heq with e1 e2
        subst e1; subst e2
        exact ⟨hlink, hheight, hrest⟩

/-- C7: the empty continuation verifies against every header. -/
theorem c7_empty_suffix (hashFn : Header → Nat) (h : Header) :
    Header.verify_sub_chain hashFn h [] = true := rfl

/-- C8: `genesis` has parent `0` (the sentinel), height `0`, and unit
placeholder fields; it is a closed term, hence deterministic and total. -/
theorem c8_genesis_shape :
    Header.genesis.parent = 0 ∧ Header.genesis.height = 0 ∧
    Header.genesis.extrinsics_root = () ∧ Header.genesis.state_root = () ∧
    Header.genesis.consensus_digest = () :=
  ⟨rfl, rfl, rfl, rfl, rfl⟩

/-- One-step helper for wrapped height arithmetic. -/
theorem mod_add_step (a j : Nat) :
    (a % u64Mod + 1 + j) % u64Mod = (a + (j + 1)) % u64Mod := by
  rw [Nat.add_assoc, Nat.mod_add_mod, Nat.add_comm 1 j]

/-- Evaluation fact used to rewrite the wrapped genesis height step. -/
theorem one_mod_u64 : 1 % u64Mod = 1 := by decide

/-- A header whose `height` field holds `u64::MAX`. -/
def maxHeightHeader : Header :=
  ⟨0, u64Mod - 1, (), (), ()⟩

/-- A header whose `parent` equals the model hash of `maxHeightHeader`, so
the hash-linkage test succeeds and `height + 1` is evaluated. -/
def maxHeightSuccessor : Header :=
  ⟨modelHash maxHeightHeader, 0, (), (), ()⟩

/-- C2 (amended): `verify_sub_chain` terminates and returns a boolean on
every input whose evaluated height additions fit in `u64`: whenever
`start.height + 1` and every chain header's `height + 1` are below `2 ^ 64`,
the overflow-checked build returns exactly the boolean that the wrapping
build computes.  (Outside that region the checked build can abort; see the
counterexample.) -/
theorem c2_verify_total_without_overflow (hashFn : Header → Nat)
    (start : Header) (chain : List Header)
    (hstart : start.height + 1 < u64Mod)
    (hchain : ∀ h ∈ chain, h.height + 1 < u64Mod) :
    Header.verify_sub_chain_checked hashFn start chain =
      some (Header.verify_sub_chain hashFn start chain) := by
  induction chain generalizing start with
  | nil => rfl
  | cons h0 rest ih =>
      have hmod : (start.height + 1) % u64Mod = start.height + 1 :=
        Nat.mod_eq_of_lt hstart
      have h0mem : h0.height + 1 < u64Mod := hchain h0 (List.mem_cons_self h0 rest)
      have hrest : ∀ h ∈ rest, h.height + 1 < u64Mod :=
        fun h hm => hchain h (List.mem_cons_of_mem h0 hm)
      rw [verify_sub_chain_cons]
      simp only [Header.verify_sub_chain_checked, u64CheckedAdd, if_pos hstart, hmod]
      by_cases h1 : hashFn start = h0.parent
      · by_cases h2 : start.height + 1 = h0.height
        · simp [h1, h2, ih h0 h0mem hrest]
        · simp [h1, h2]
      · simp [h1]

/-- C2 counterexample: under the overflow-checked build that `cargo test`
uses, `verify_sub_chain` aborts (modelled `none`, not a boolean) on a start
header of height `u64::MAX` whose continuation's `parent` equals the hash of
the start header. -/
theorem c2_counterexample :
    Header.verify_sub_chain_checked modelHash maxHeightHeader
      [maxHeightSuccessor] = none := by
  decide

/-- C2 witness: the amended theorem applied to genesis and its child. -/
theorem c2_witness :
    Header.verify_sub_chain_checked modelHash Header.genesis
        [Header.child modelHash Header.genesis] =
      some (Header.verify_sub_chain modelHash Header.genesis
        [Header.child modelHash Header.genesis]) :=
  c2_verify_total_without_overflow modelHash Header.genesis
    [Header.child modelHash Header.genesis] (by decide) (by decide)

/-- C4 (amended): when `h.height + 1` fits in `u64`, `child h` is the header
with parent `hash h` and height `h.height + 1`, the placeholder fields are
carried over unchanged, and the overflow-checked build returns the same
header without aborting.  (At `h.height = u64::MAX` the addition overflows;
see the counterexample.) -/
theorem c4_child_shape (hashFn : Header → Nat) (h : Header)
    (hh : h.height + 1 < u64Mod) :
    Header.child_checked hashFn h = some (Header.child hashFn h) ∧
    (Header.child hashFn h).parent = hashFn h ∧
    (Header.child hashFn h).height = h.height + 1 ∧
    (Header.child hashFn h).extrinsics_root = h.extrinsics_root ∧
    (Header.child hashFn h).state_root = h.state_root ∧
    (Header.child hashFn h).consensus_digest = h.consensus_digest := by
  have hmod : (h.height + 1) % u64Mod = h.height + 1 := Nat.mod_eq_of_lt hh
  refine ⟨?_, rfl, ?_, rfl, rfl, rfl⟩
  · simp only [Header.child_checked, u64CheckedAdd, if_pos hh, Header.child, hmod]
  · simp only [Header.child, hmod]

/-- C4 counterexample: at `height = u64::MAX` the addition `height + 1`
overflows `u64`: the overflow-checked build of `child` aborts (`none`), and
the wrapping build produces height `0` rather than `h.height + 1`. -/
theorem c4_counterexample :
    Header.child_checked modelHash maxHeightHeader = none ∧
    (Header.child modelHash maxHeightHeader).height ≠ maxHeightHeader.height + 1 := by
  constructor
  · decide
  · decide

/-- C4 witness: the amended theorem applied to genesis. -/
theorem c4_witness :
    Header.child_checked modelHash Header.genesis =
      some (Header.child modelHash Header.genesis) ∧
    (Header.child modelHash Header.genesis).parent = modelHash Header.genesis ∧
    (Header.child modelHash Header.genesis).height = Header.genesis.height + 1 ∧
    (Header.child modelHash Header.genesis).extrinsics_root = Header.genesis.extrinsics_root ∧
    (Header.child modelHash Header.genesis).state_root = Header.genesis.state_root ∧
    (Header.child modelHash Header.genesis).consensus_digest = Header.genesis.consensus_digest :=
  c4_child_shape modelHash Header.genesis (by decide)

/-- A chain built from `h` by repeated `child` calls always verifies against
`h`, for every hash function and every length. -/
theorem verify_childChain (hashFn : Header → Nat) (h : Header) (n : Nat) :
    Header.verify_sub_chain hashFn h
      (childChain hashFn (Header.child hashFn h) n) = true := by
  induction n generalizing h with
  | zero => rfl
  | succ k ih =>
      rw [childChain, verify_sub_chain_cons]
      have hp : (Header.child hashFn h).parent = hashFn h := rfl
      have hh : (Header.child hashFn h).height = (h.height + 1) % u64Mod := rfl
      rw [hp, hh]
      simp [ih]

/-- The source's length-5 builder produces exactly the first five headers of
the repeated-child chain from genesis. -/
theorem build_valid_chain_eq_childChain (hashFn : Header → Nat) :
    build_valid_chain_length_5 hashFn = childChain hashFn Header.genesis 5 := by
  simp [build_valid_chain_length_5, pushChildLoop, childChain]

/-- C3: a chain built from `genesis` by repeated `child` calls verifies from
its first element for every length `n ≥ 1`; in particular the 5-header chain
returned by `build_valid_chain_length_5` verifies from its first element. -/
theorem c3_child_chains_verify (hashFn : Header → Nat) (n : Nat) (hn : 1 ≤ n) :
    verifyFromHead hashFn (childChain hashFn Header.genesis n) = true ∧
    verifyFromHead hashFn (build_valid_chain_length_5 hashFn) = true := by
  constructor
  · obtain ⟨k, rfl⟩ : ∃ k, n = k + 1 := ⟨n - 1, by omega⟩
    rw [childChain]
    exact verify_childChain hashFn Header.genesis k
  · rw [build_valid_chain_eq_childChain, childChain]
    exact verify_childChain hashFn Header.genesis 4

/-- C3 witness: length 5 with the model hash. -/
theorem c3_witness :
    verifyFromHead modelHash (childChain modelHash Header.genesis 5) = true ∧
    verifyFromHead modelHash (build_valid_chain_length_5 modelHash) = true :=
  c3_child_chains_verify modelHash 5 (by decide)

/-- C5: starting from genesis `g` and its child `b1`, replacing `b1.height`
by any value other than `g.height + 1` makes `verify_sub_chain g [b1]`
false, and replacing `b1.parent` by any value other than `hash g` makes it
false as well. -/
theorem c5_tamper_rejection (hashFn : Header → Nat) (v w : Nat)
    (hv : v ≠ Header.genesis.height + 1) (hw : w ≠ hashFn Header.genesis) :
    Header.verify_sub_chain hashFn Header.genesis
        [(Header.child hashFn Header.genesis).setHeight v] = false ∧
    Header.verify_sub_chain hashFn Header.genesis
        [(Header.child hashFn Header.genesis).setParent w] = false := by
  constructor
  · have hv1 : ((1 : Nat) == v) = false := by
      have : (1 : Nat) ≠ v := fun e => hv e.symm
      simpa using this
    rw [verify_sub_chain_cons]
    have hp : ((Header.child hashFn Header.genesis).setHeight v).parent =
        hashFn Header.genesis := rfl
    have hh : ((Header.child hashFn Header.genesis).setHeight v).height = v := rfl
    rw [hp, hh]
    have hg : (Header.genesis.height + 1) % u64Mod = 1 := by decide
    rw [hg, hv1]
    simp
  · have hw1 : (hashFn Header.genesis == w) = false := by
      have : hashFn Header.genesis ≠ w := fun e => hw e.symm
      simpa using this
    rw [verify_sub_chain_cons]
    have hp : ((Header.child hashFn Header.genesis).setParent w).parent = w := rfl
    rw [hp, hw1]
    simp

/-- C5 witness: the tampered values `10` of the repository's tests, with the
model hash (`modelHash genesis = 5`, so `10` differs from both targets). -/
theorem c5_witness :
    Header.verify_sub_chain modelHash Header.genesis
        [(Header.child modelHash Header.genesis).setHeight 10] = false ∧
    Header.verify_sub_chain modelHash Header.genesis
        [(Header.child modelHash Header.genesis).setParent 10] = false :=
  c5_tamper_rejection modelHash 10 10 (by decide) (by decide)

/-- C6: `build_an_invalid_chain` has three headers, starts with a proper
genesis header, and the full sequence fails verification from its own first
element, whatever the hash function. -/
theorem c6_invalid_chain :
    3 ≤ build_an_invalid_chain.length ∧
    build_an_invalid_chain.head? = some Header.genesis ∧
    ∀ hashFn : Header → Nat,
      verifyFromHead hashFn build_an_invalid_chain = false := by
  refine ⟨by decide, by decide, fun hashFn => ?_⟩
  show Header.verify_sub_chain hashFn Header.genesis
      [Header.genesis, Header.genesis] = false
  rw [verify_sub_chain_cons]
  have hg : (Header.genesis.height + 1) % u64Mod = 1 := by decide
  have hh : ((1 : Nat) == Header.genesis.height) = false := by decide
  rw [hg, hh]
  simp

/-- Heights along a verified chain are strictly consecutive in `u64`
arithmetic. -/
theorem verify_heights (hashFn : Header → Nat) (start : Header)
    (chain : List Header)
    (hv : Header.verify_sub_chain hashFn start chain = true) :
    ∀ i (hi : i < chain.length),
      (chain.get ⟨i, hi⟩).height = (start.height + 1 + i) % u64Mod := by
  induction chain generalizing start with
  | nil => intro i hi; exact absurd hi (Nat.not_lt_zero i)
  | cons h0 rest ih =>
      rw [verify_sub_chain_cons_iff] at hv
      obtain ⟨hlink, hheight, hrest⟩ := hv
      intro i hi
      cases i with
      | zero =>
          show h0.height = (start.height + 1 + 0) % u64Mod
          rw [Nat.add_zero]
          exact hheight.symm
      | succ j =>
          have hj : j < rest.length := Nat.lt_of_succ_lt_succ hi
          show (rest.get ⟨j, hj⟩).height = (start.height + 1 + (j + 1)) % u64Mod
          rw [ih h0 hrest j hj, ← hheight]
          exact mod_add_step (start.height + 1) j

/-- Every header after the first in a verified chain carries the hash of its
immediate predecessor. -/
theorem verify_adjacent (hashFn : Header → Nat) (start : Header)
    (chain : List Header)
    (hv : Header.verify_sub_chain hashFn start chain = true) :
    ∀ i (hi : i + 1 < chain.length),
      (chain.get ⟨i + 1, hi⟩).parent =
        hashFn (chain.get ⟨i, Nat.lt_of_succ_lt hi⟩) := by
  induction chain generalizing start with
  | nil => intro i hi; exact absurd hi (Nat.not_lt_zero _)
  | cons h0 rest ih =>
      rw [verify_sub_chain_cons_iff] at hv
      obtain ⟨-, -, hrest⟩ := hv
      intro i hi
      cases i with
      | zero =>
          cases rest with
          | nil => simp at hi
          | cons h1 rest2 =>
              rw [verify_sub_chain_cons_iff] at hrest
              exact hrest.1.symm
      | succ j =>
          have hj : j + 1 < rest.length := Nat.lt_of_succ_lt_succ hi
          exact ih h0 hrest j hj

/-- Every suffix of a verified chain verifies from its own first element. -/
theorem verify_suffixes (hashFn : Header → Nat) (start : Header)
    (chain : List Header)
    (hv : Header.verify_sub_chain hashFn start chain = true) :
    ∀ i (hi : i < chain.length),
      Header.verify_sub_chain hashFn (chain.get ⟨i, hi⟩)
        (chain.drop (i + 1)) = true := by
  induction chain generalizing start with
  | nil => intro i hi; exact absurd hi (Nat.not_lt_zero i)
  | cons h0 rest ih =>
      rw [verify_sub_chain_cons_iff] at hv
      obtain ⟨-, -, hrest⟩ := hv
      intro i hi
      cases i with
      | zero => exact hrest
      | succ j =>
          have hj : j < rest.length := Nat.lt_of_succ_lt_succ hi
          exact ih h0 hrest j hj

/-- C9: a successful `verify_sub_chain start chain` forces consecutive
heights (`chain[i].height = (start.height + 1 + i) mod 2 ^ 64`), hash
linkage of the first element to `start` and of every later element to its
predecessor, and verification of every suffix from its own element. -/
theorem c9_verified_chain_invariants (hashFn : Header → Nat) (start : Header)
    (chain : List Header)
    (hv : Header.verify_sub_chain hashFn start chain = true) :
    (∀ i (hi : i < chain.length),
        (chain.get ⟨i, hi⟩).height = (start.height + 1 + i) % u64Mod) ∧
    (∀ h0 rest, chain = h0 :: rest → h0.parent = hashFn start) ∧
    (∀ i (hi : i + 1 < chain.length),
        (chain.get ⟨i + 1, hi⟩).parent =
          hashFn (chain.get ⟨i, Nat.lt_of_succ_lt hi⟩)) ∧
    (∀ i (hi : i < chain.length),
        Header.verify_sub_chain hashFn (chain.get ⟨i, hi⟩)
          (chain.drop (i + 1)) = true) := by
  refine ⟨verify_heights hashFn start chain hv, ?_,
    verify_adjacent hashFn start chain hv,
    verify_suffixes hashFn start chain hv⟩
  rintro h0 rest rfl
  rw [verify_sub_chain_cons_iff] at hv
  exact hv.1.symm

/-- C9 witness: the invariants applied to genesis and its singleton child
continuation under the model hash. -/
theorem c9_witness :
    (Header.child modelHash Header.genesis).height =
      (Header.genesis.height + 1 + 0) % u64Mod ∧
    (Header.child modelHash Header.genesis).parent = modelHash Header.genesis := by
  have h := c9_verified_chain_invariants modelHash Header.genesis
    [Header.child modelHash Header.genesis] (by decide)
  exact ⟨h.1 0 (by decide), h.2.1 (Header.child modelHash Header.genesis) [] rfl⟩

/-- C10: `verify_sub_chain` is a pure function of its inputs — equal start
headers and equal chains yield equal results, and the result depends on the
hash function only through its values on the headers involved (so any
deterministic hash gives stable results across repeated calls). -/
theorem c10_verify_sub_chain_pure (hashFn1 hashFn2 : Header → Nat)
    (s1 s2 : Header) (c1 c2 : List Header)
    (hs : s1 = s2) (hc : c1 = c2) (hstart : hashFn1 s1 = hashFn2 s1)
    (hchain : ∀ h ∈ c1, hashFn1 h = hashFn2 h) :
    Header.verify_sub_chain hashFn1 s1 c1 =
      Header.verify_sub_chain hashFn2 s2 c2 := by
  subst hs; subst hc
  induction c1 generalizing s1 with
  | nil => rfl
  | cons h0 rest ih =>
      rw [verify_sub_chain_cons, verify_sub_chain_cons, hstart]
      rw [ih h0 (hchain h0 (List.mem_cons_self h0 rest))
        (fun h hm => hchain h (List.mem_cons_of_mem h0 hm))]

/-- C10 witness: two calls with equal inputs under the model hash. -/
theorem c10_witness :
    Header.verify_sub_chain modelHash Header.genesis
        [Header.child modelHash Header.genesis] =
      Header.verify_sub_chain modelHash Header.genesis
        [Header.child modelHash Header.genesis] :=
  c10_verify_sub_chain_pure modelHash modelHash Header.genesis Header.genesis
    [Header.child modelHash Header.genesis] [Header.child modelHash Header.genesis]
    rfl rfl rfl (fun _ _ => rfl)
